import Mathlib

/-!
Shallow embedding of `kpet/data.py`: the KPET data model (test cases, test
suites, the database) and its selection engine (mapping a set of changed
source paths to the test cases and suites responsible for them), together
with the typed-object binder (`Object.__init__`) and run generation
(`Base.generate_run`).

Modelling conventions:
* A compiled regular expression is abstracted by a type `R` together with a
  `RegexLike` instance providing its (anchored) `match` operation as a
  boolean function on strings; all theorems quantify over `R`, so nothing
  depends on a particular regex semantics.
* A Python set of source paths is embedded as the list of elements the code
  iterates over (`List String`); results the code builds as Python sets are
  embedded as `Finset`s.
* Python `None` becomes `Option.none`.
-/

/-- Abstraction of a compiled regular expression: `rmatch r s` embeds
Python's `r.match(s)` truthiness (whether the regex matches at the start
of `s`). -/
class RegexLike (R : Type) where
  rmatch : R → String → Bool

/-- An exact-literal regex instance used for concrete evaluation: the
pattern string matches precisely its own text, as an anchored exact-match
regex does. -/
instance : RegexLike String where
  rmatch r s := r == s

/-- Test case (`class Case`): required field `name`, optional fields
defaulting to `None` as assigned by `Object.__init__`. -/
structure Case where
  name : String
  ignore_panic : Option Bool := none
  hostRequires : Option String := none
  partitions : Option String := none
  kickstart : Option String := none
  tasks : Option String := none
deriving DecidableEq, Repr

/-- One entry of a suite's `patterns` list: a `StrictStruct` with a
compiled regex under key `pattern` and a string under key `case_name`. -/
structure Pattern (R : Type) where
  pattern : R
  case_name : String
deriving DecidableEq, Repr

/-- Test suite (`class Suite`): required fields `description`, `version`,
`patterns`, `cases`; optional fields defaulting to `None`. -/
structure Suite (R : Type) where
  description : String
  version : String
  patterns : List (Pattern R)
  cases : List Case
  tasks : Option String := none
  ignore_panic : Option Bool := none
  hostRequires : Option String := none
  partitions : Option String := none
  kickstart : Option String := none
deriving DecidableEq, Repr

/-- `Suite.get_case`: scan `self.cases` in declaration order and return the
first case whose `name` equals the argument, or `None` if not found. -/
def Suite.get_case {R : Type} (s : Suite R) (nm : String) : Option Case :=
  s.cases.find? (fun c => c.name == nm)

/-- `Suite.match_case_set`: if the source path set is non-empty, iterate
over every pattern and every path, and whenever the pattern's regex
matches the path, look up the pattern's `case_name` via `get_case` and add
the case (when found) to the result set; otherwise return the set of all
cases of the suite. -/
def Suite.match_case_set {R : Type} [RegexLike R] [DecidableEq R]
    (s : Suite R) (src_path_set : List String) : Finset Case :=
  if src_path_set ≠ [] then
    s.patterns.foldl
      (fun case_set pat =>
        src_path_set.foldl
          (fun case_set' src_path =>
            if RegexLike.rmatch pat.pattern src_path then
              match s.get_case pat.case_name with
              | some c => insert c case_set'
              | none => case_set'
            else case_set')
          case_set)
      ∅
  else
    s.cases.toFinset

/-- `Suite.matches`: `bool(self.match_case_set(src_path_set))`, i.e. whether
the matched case set is non-empty. -/
def Suite.matches {R : Type} [RegexLike R] [DecidableEq R]
    (s : Suite R) (src_path_set : List String) : Bool :=
  s.match_case_set src_path_set ≠ ∅

/-- Database (`class Base`): the fields assigned by construction from the
resolved `index.yaml` data (`suites`, `trees`) plus `dir_path`.  The
`trees` map is embedded as an association list of
tree name to template file path. -/
structure Base (R : Type) where
  suites : List (Suite R)
  trees : List (String × String)
  dir_path : String

/-- `Base.match_suite_set`: the set comprehension
`{suite for suite in self.suites if suite.matches(src_path_set)}`. -/
def Base.match_suite_set {R : Type} [RegexLike R] [DecidableEq R]
    (db : Base R) (src_path_set : List String) : Finset (Suite R) :=
  (db.suites.filter (fun s => s.matches src_path_set)).toFinset

/-- `Base.match_case_set`: start from the empty set and union in
`suite.match_case_set(src_path_set)` for each suite of the database. -/
def Base.match_case_set {R : Type} [RegexLike R] [DecidableEq R]
    (db : Base R) (src_path_set : List String) : Finset Case :=
  db.suites.foldl (fun case_set s => case_set ∪ s.match_case_set src_path_set) ∅

/-! ### Run generation (`Base.get_tree_template`, `Base.generate_run`) -/

/-- Association-list lookup, embedding Python `dict` key lookup
(`k in d` is `(alookup d k).isSome`, `d[k]` is the looked-up value). -/
def alookup {α : Type} (l : List (String × α)) (k : String) : Option α :=
  (l.find? (fun p => p.1 == k)).map Prod.snd

/-- `Base.get_tree_template`: after `assert tree_name in self.trees`,
return the template registered under `tree_name` (embedded by its file
path `self.trees[tree_name]`; the Jinja environment construction is an
external collaborator).  `none` embeds the assertion failure. -/
def Base.get_tree_template {R : Type} (db : Base R) (tree_name : String) :
    Option String :=
  alookup db.trees tree_name

/-- The errors `Base.generate_run` can raise: a failed `assert`
(`AssertionError`) or the parse error raised by `etree.XML` during the
lint pass (`XMLSyntaxError`). -/
inductive RunError
  | assertionError
  | xmlError
deriving DecidableEq, Repr

/-- The template bindings (the `params` dict) built by
`Base.generate_run`. -/
structure TemplateParams (R : Type) where
  DESCRIPTION : String
  KURL : String
  ARCH : String
  TREE : String
  SRC_PATH_SET : List String
  SUITE_SET : Finset (Suite R)
  match_suite_set : List String → Finset (Suite R)
  match_case_set : List String → Finset Case
  getenv : String → Option String

/-- The `params` dict of `Base.generate_run`: run description, kernel
location, architecture, tree name, the raw path selector, the full suite
set (`set(self.suites)`, not pre-filtered), the two bound matching
methods, and `os.getenv`. -/
def Base.runParams {R : Type} [RegexLike R] [DecidableEq R] (db : Base R)
    (getenv : String → Option String)
    (description tree_name arch_name kernel_location : String)
    (src_path_set : List String) : TemplateParams R :=
  { DESCRIPTION := description
    KURL := kernel_location
    ARCH := arch_name
    TREE := tree_name
    SRC_PATH_SET := src_path_set
    SUITE_SET := db.suites.toFinset
    match_suite_set := db.match_suite_set
    match_case_set := db.match_case_set
    getenv := getenv }

/-- `Base.generate_run`, parameterized over the external collaborators:
`render` (Jinja rendering of the template registered for the tree),
`parseXML` (`etree.XML`, where `none` embeds the parse error raised on
text that is not well-formed) and `serializeXML` (`etree.tostring` with
blank text removed, pretty printing, and an XML declaration).  The
`assert tree_name in self.trees` is embedded as the `none` branch of the
tree lookup. -/
def Base.generate_run {R : Type} [RegexLike R] [DecidableEq R] {X : Type}
    (db : Base R) (render : String → TemplateParams R → String)
    (parseXML : String → Option X) (serializeXML : X → String)
    (getenv : String → Option String)
    (description tree_name arch_name kernel_location : String)
    (src_path_set : List String) (lint : Bool) : Except RunError String :=
  match db.get_tree_template tree_name with
  | none => .error .assertionError
  | some tpl =>
    let text := render tpl
      (db.runParams getenv description tree_name arch_name kernel_location
        src_path_set)
    if lint then
      match parseXML text with
      | none => .error .xmlError
      | some t => .ok (serializeXML t)
    else
      .ok text

/-! ### The typed object binder (`Object.__init__`) -/

/-- The two error classes observable from `Object.__init__`: the schema
library's `Invalid` (user-facing invalid data) and the distinct plain
`Exception`/`KeyError` classes used for internal inconsistencies. -/
inductive ObjError
  | invalid (msg : String)
  | internal (msg : String)
deriving DecidableEq, Repr

/-- The `required` and `optional` field-name sets of a recognized `Struct`
schema. -/
structure StructSchema where
  required : List String
  optional : List String

/-- Modelled from the spec: the schema engine (`kpet/schema.py`) is not
among the sources here; per §4.1 it is consumed only through its contract:
`resolve` returns canonical resolved data (a dict, embedded as an
association list) or fails with `Invalid`; `recognize` returns the
canonical `Struct` (its `required`/`optional` key sets); `validate`
re-checks resolved data against that struct. -/
structure SchemaModel (D V : Type) where
  resolve : D → Except String (List (String × V))
  recognized : StructSchema
  validate : List (String × V) → Except String Unit

/-- The required-member assignment loop of `Object.__init__`:
`setattr(self, name, data[name])` for each required member, where a
missing key raises `KeyError` (an error class distinct from
`Invalid`). -/
def assignRequired {V : Type} :
    List String → List (String × V) → Except ObjError (List (String × Option V))
  | [], _ => .ok []
  | n :: rest, data =>
    match alookup data n with
    | none => .error (.internal ("KeyError: " ++ n))
    | some v =>
      match assignRequired rest data with
      | .error e => .error e
      | .ok attrs => .ok ((n, some v) :: attrs)

/-- `Object.__init__`: resolve the raw data, wrapping `Invalid` as
`Invalid("Invalid <type> data")`; recognize the schema (a `Struct` by
typing, embedding the `assert isinstance(schema, Struct)`); validate the
resolved data, wrapping failure as a plain `Exception` (a class distinct
from `Invalid`); then assign every required member and every optional
member, the latter with `data.get(name, None)`.  The attribute
assignments are embedded as an association list of member name to
(optional) value. -/
def Object.init {D V : Type} (schema : SchemaModel D V) (typeName : String)
    (data : D) : Except ObjError (List (String × Option V)) :=
  match schema.resolve data with
  | .error _ => .error (.invalid ("Invalid " ++ typeName ++ " data"))
  | .ok resolved =>
    match schema.validate resolved with
    | .error e => .error (.internal ("Resolved data is invalid:\n" ++ e))
    | .ok _ =>
      match assignRequired schema.recognized.required resolved with
      | .error e => .error e
      | .ok reqAttrs =>
        .ok (reqAttrs ++ schema.recognized.optional.map
          (fun n => (n, alookup resolved n)))

/-! ### Index document migration (`convert` and the `Ancestry` of
`Base.__init__`) -/

/-- The legacy index document shape: `suites` is a keyed map of suite
name to suite document (embedded as an association list, whose order is
the dict's insertion order). -/
structure LegacyIndex (α : Type) where
  schemaVersion : Int
  suites : List (String × α)
  trees : List (String × String)

/-- The current index document shape: `suites` is an ordered list of
suite documents. -/
structure CurrentIndex (α : Type) where
  schemaVersion : Int
  suites : List α
  trees : List (String × String)

/-- `convert` (the nested function of `Base.__init__`): copy the old data
(`old_data.copy()`, so the input is not mutated — the embedding is pure)
and replace the `suites` keyed map by `list(data['suites'].values())`,
leaving every other key unchanged. -/
def convert {α : Type} (old_data : LegacyIndex α) : CurrentIndex α :=
  { schemaVersion := old_data.schemaVersion
    suites := old_data.suites.map Prod.snd
    trees := old_data.trees }

/-- Modelled from the spec: raw index data accepted by the `Ancestry` of
`Base.__init__` is shaped either as the current `StrictStruct` (suites an
ordered list) or as the prior, legacy `StrictStruct` (suites a keyed
map); the two strict shapes are mutually exclusive, so the accepted raw
inputs form this sum. -/
inductive RawIndex (α : Type)
  | current (d : CurrentIndex α)
  | legacy (d : LegacyIndex α)

/-- Modelled from the spec (§4.2): `Ancestry.resolve` tries the current
schema first; on its failure it tries the prior schema and, on success,
applies the migration function (`convert`) so the result satisfies the
current schema.  On the accepted inputs above, resolution always
succeeds. -/
def ancestryResolve {α : Type} : RawIndex α → CurrentIndex α
  | .current d => d
  | .legacy d => convert d

/-- `Base.__init__` after schema resolution of `index.yaml`: the resolved
index data's `suites` and `trees` become the database's members, and
`dir_path` is recorded. -/
def Base.ofIndex {R : Type} (dir_path : String) (raw : RawIndex (Suite R)) :
    Base R :=
  { suites := (ancestryResolve raw).suites
    trees := (ancestryResolve raw).trees
    dir_path := dir_path }

/-! ### Concrete fixtures used by the witness theorems -/

/-- A concrete test case. -/
def wcase1 : Case := { name := "net-tests" }

/-- A second case with the same name but a differing optional field. -/
def wcase2 : Case := { name := "net-tests", ignore_panic := some true }

/-- A concrete suite with one pattern selecting `wcase1`. -/
def wsuite : Suite String :=
  { description := "network tests"
    version := "1"
    patterns := [{ pattern := "drivers/net/e1000.c", case_name := "net-tests" }]
    cases := [wcase1] }

/-- A suite with two same-named cases of differing optional fields. -/
def wsuiteDup : Suite String :=
  { description := "dup", version := "1", patterns := [], cases := [wcase1, wcase2] }

/-- A pattern whose `case_name` names no case of `wsuite`. -/
def wpatDangling : Pattern String := { pattern := "fs/ext4.c", case_name := "fs-tests" }

/-- A suite with patterns but an empty cases list. -/
def wsuiteEmpty : Suite String :=
  { description := "empty", version := "1"
    patterns := [{ pattern := "drivers/net/e1000.c", case_name := "net-tests" }]
    cases := [] }

/-- A concrete database. -/
def wdb : Base String :=
  { suites := [wsuiteEmpty, wsuite]
    trees := [("upstream", "upstream.xml")]
    dir_path := "db" }

/-- A concrete schema model: `resolve` is the identity on an
already-resolved dict, one required member `name`, one optional member
`opt`, and a vacuous `validate`. -/
def wschema : SchemaModel (List (String × Nat)) Nat :=
  { resolve := fun d => .ok d
    recognized := { required := ["name"], optional := ["opt"] }
    validate := fun _ => .ok () }

/-! ### Helper lemmas about the selection engine -/

/-- Membership in the inner loop of `match_case_set` (the fold over the
source paths for one fixed pattern). -/
lemma Suite.mem_foldl_paths {R : Type} [RegexLike R] [DecidableEq R]
    (s : Suite R) (pat : Pattern R) :
    ∀ (paths : List String) (acc : Finset Case) (c : Case),
      (c ∈ paths.foldl
        (fun case_set' src_path =>
          if RegexLike.rmatch pat.pattern src_path then
            match s.get_case pat.case_name with
            | some c' => insert c' case_set'
            | none => case_set'
          else case_set') acc) ↔
      c ∈ acc ∨ ∃ p ∈ paths, RegexLike.rmatch pat.pattern p = true ∧
        s.get_case pat.case_name = some c := by
  intro paths
  induction paths with
  | nil => simp
  | cons p rest ih =>
    intro acc c
    rw [List.foldl_cons, ih]
    by_cases hm : RegexLike.rmatch pat.pattern p = true
    · rw [if_pos hm]
      cases hgc : s.get_case pat.case_name with
      | none =>
        constructor
        · rintro (hc | ⟨q, hq, hmq, hsome⟩)
          · exact Or.inl hc
          · exact Or.inr ⟨q, List.mem_cons_of_mem _ hq, hmq, hsome⟩
        · rintro (hc | ⟨q, hq, hmq, hsome⟩)
          · exact Or.inl hc
          · rcases List.mem_cons.mp hq with rfl | hq'
            · exact absurd hsome (by simp)
            · exact Or.inr ⟨q, hq', hmq, hsome⟩
      | some c' =>
        simp only [Finset.mem_insert]
        constructor
        · rintro ((rfl | hc) | ⟨q, hq, hmq, hsome⟩)
          · exact Or.inr ⟨p, List.mem_cons_self p rest, hm, rfl⟩
          · exact Or.inl hc
          · exact Or.inr ⟨q, List.mem_cons_of_mem _ hq, hmq, hsome⟩
        · rintro (hc | ⟨q, hq, hmq, hsome⟩)
          · exact Or.inl (Or.inr hc)
          · rcases List.mem_cons.mp hq with rfl | hq'
            · exact Or.inl (Or.inl (Option.some_injective _ hsome.symm))
            · exact Or.inr ⟨q, hq', hmq, hsome⟩
    · rw [if_neg hm]
      constructor
      · rintro (hc | ⟨q, hq, hmq, hsome⟩)
        · exact Or.inl hc
        · exact Or.inr ⟨q, List.mem_cons_of_mem _ hq, hmq, hsome⟩
      · rintro (hc | ⟨q, hq, hmq, hsome⟩)
        · exact Or.inl hc
        · rcases List.mem_cons.mp hq with rfl | hq'
          · exact absurd hmq hm
          · exact Or.inr ⟨q, hq', hmq, hsome⟩

/-- Membership in the outer loop of `match_case_set` (the fold over the
declared patterns). -/
lemma Suite.mem_foldl_patterns {R : Type} [RegexLike R] [DecidableEq R]
    (s : Suite R) (paths : List String) :
    ∀ (pats : List (Pattern R)) (acc : Finset Case) (c : Case),
      (c ∈ pats.foldl
        (fun case_set pat =>
          paths.foldl
            (fun case_set' src_path =>
              if RegexLike.rmatch pat.pattern src_path then
                match s.get_case pat.case_name with
                | some c' => insert c' case_set'
                | none => case_set'
              else case_set') case_set) acc) ↔
      c ∈ acc ∨ ∃ pat ∈ pats, ∃ p ∈ paths,
        RegexLike.rmatch pat.pattern p = true ∧
        s.get_case pat.case_name = some c := by
  intro pats
  induction pats with
  | nil => simp
  | cons pat rest ih =>
    intro acc c
    rw [List.foldl_cons, ih, Suite.mem_foldl_paths]
    constructor
    · rintro ((hc | ⟨p, hp, hmp, hsome⟩) | ⟨q, hq, p, hp, hmp, hsome⟩)
      · exact Or.inl hc
      · exact Or.inr ⟨pat, List.mem_cons_self pat rest, p, hp, hmp, hsome⟩
      · exact Or.inr ⟨q, List.mem_cons_of_mem _ hq, p, hp, hmp, hsome⟩
    · rintro (hc | ⟨q, hq, p, hp, hmp, hsome⟩)
      · exact Or.inl (Or.inl hc)
      · rcases List.mem_cons.mp hq with rfl | hq'
        · exact Or.inl (Or.inr ⟨p, hp, hmp, hsome⟩)
        · exact Or.inr ⟨q, hq', p, hp, hmp, hsome⟩

/-- Membership characterization of `Suite.match_case_set` on a non-empty
path set: a case is selected iff some declared pattern matches some path
and `get_case` resolves the pattern's `case_name` to that case. -/
lemma Suite.mem_match_case_set {R : Type} [RegexLike R] [DecidableEq R]
    (s : Suite R) (paths : List String) (h : paths ≠ []) (c : Case) :
    c ∈ s.match_case_set paths ↔ ∃ pat ∈ s.patterns, ∃ p ∈ paths,
      RegexLike.rmatch pat.pattern p = true ∧
      s.get_case pat.case_name = some c := by
  rw [Suite.match_case_set, if_pos h, Suite.mem_foldl_patterns]
  simp

/-- A case returned by `get_case` is one of the suite's declared cases. -/
lemma Suite.get_case_mem {R : Type} (s : Suite R) (nm : String) (c : Case)
    (h : s.get_case nm = some c) : c ∈ s.cases :=
  List.mem_of_find?_eq_some h

/-- A case returned by `get_case` bears the requested name. -/
lemma Suite.get_case_name {R : Type} (s : Suite R) (nm : String) (c : Case)
    (h : s.get_case nm = some c) : c.name = nm := by
  have := List.find?_some h
  simpa using this

/-- `List.find?` returns the head of the first split whose element
satisfies the predicate while everything before it does not. -/
lemma find?_append_first {α : Type} (p : α → Bool) (l1 l2 : List α) (a : α)
    (ha : p a = true) (h1 : ∀ x ∈ l1, p x = false) :
    (l1 ++ a :: l2).find? p = some a := by
  induction l1 with
  | nil => simp [List.find?_cons, ha]
  | cons x rest ih =>
    have hx : p x = false := h1 x (by simp)
    simp only [List.cons_append, List.find?_cons, hx]
    exact ih (fun y hy => h1 y (by simp [hy]))

/-- `Suite.matches` is true exactly when the matched case set is
non-empty. -/
lemma Suite.matches_iff {R : Type} [RegexLike R] [DecidableEq R]
    (s : Suite R) (paths : List String) :
    s.matches paths = true ↔ s.match_case_set paths ≠ ∅ := by
  rw [Suite.matches]
  exact decide_eq_true_iff

/-- Membership in the union fold of `Base.match_case_set`. -/
lemma Base.mem_foldl_union {R : Type} [RegexLike R] [DecidableEq R]
    (paths : List String) :
    ∀ (l : List (Suite R)) (acc : Finset Case) (c : Case),
      (c ∈ l.foldl (fun case_set s => case_set ∪ s.match_case_set paths) acc) ↔
        c ∈ acc ∨ ∃ su ∈ l, c ∈ su.match_case_set paths := by
  intro l
  induction l with
  | nil => simp
  | cons s rest ih =>
    intro acc c
    rw [List.foldl_cons, ih]
    simp only [Finset.mem_union, List.mem_cons]
    constructor
    · rintro ((hc | hc) | ⟨su, hsu, hc⟩)
      · exact Or.inl hc
      · exact Or.inr ⟨s, Or.inl rfl, hc⟩
      · exact Or.inr ⟨su, Or.inr hsu, hc⟩
    · rintro (hc | ⟨su, rfl | hsu, hc⟩)
      · exact Or.inl (Or.inl hc)
      · exact Or.inl (Or.inr hc)
      · exact Or.inr ⟨su, hsu, hc⟩

/-- Membership characterization of `Base.match_case_set`. -/
lemma Base.mem_match_case_set_iff {R : Type} [RegexLike R] [DecidableEq R]
    (db : Base R) (paths : List String) (c : Case) :
    c ∈ db.match_case_set paths ↔ ∃ su ∈ db.suites, c ∈ su.match_case_set paths := by
  rw [Base.match_case_set, Base.mem_foldl_union]
  simp

/-- Membership characterization of `Base.match_suite_set`. -/
lemma Base.mem_match_suite_set {R : Type} [RegexLike R] [DecidableEq R]
    (db : Base R) (paths : List String) (su : Suite R) :
    su ∈ db.match_suite_set paths ↔ su ∈ db.suites ∧ su.matches paths = true := by
  rw [Base.match_suite_set, List.mem_toFinset, List.mem_filter]

/-! ### Claim theorems: the selection engine -/

/-- C1: for every suite, `match_case_set` on the empty path set returns
exactly the set of all declared cases (`set(suite.cases)`), regardless of
the suite's patterns: the empty selector selects everything. -/
theorem claim_C1_empty_selector_all_cases {R : Type} [RegexLike R] [DecidableEq R]
    (s : Suite R) : s.match_case_set [] = s.cases.toFinset := by
  rw [Suite.match_case_set]
  simp

/-- C2: for every suite and non-empty path set, `match_case_set` is a
subset of the declared cases, and a case is selected iff some declared
pattern's regex matches some path of the set and `get_case` resolves that
pattern's `case_name` to it; the result is a set, so a case reachable via
several patterns or paths appears once. -/
theorem claim_C2_nonempty_selector_characterization {R : Type} [RegexLike R]
    [DecidableEq R] (s : Suite R) (paths : List String) (h : paths ≠ []) :
    s.match_case_set paths ⊆ s.cases.toFinset ∧
    (∀ c : Case, c ∈ s.match_case_set paths ↔
      ∃ pat ∈ s.patterns, ∃ p ∈ paths,
        RegexLike.rmatch pat.pattern p = true ∧
        s.get_case pat.case_name = some c) := by
  constructor
  · intro c hc
    rcases (Suite.mem_match_case_set s paths h c).mp hc with
      ⟨pat, _, p, _, _, hsome⟩
    exact List.mem_toFinset.mpr (Suite.get_case_mem s pat.case_name c hsome)
  · exact Suite.mem_match_case_set s paths h

/-- C4: the database's matched case set is the union of its suites'
matched case sets, its matched suite set is exactly the suites whose
`matches` is true, and `matches` is true exactly when the suite's matched
case set is non-empty. -/
theorem claim_C4_database_aggregation {R : Type} [RegexLike R] [DecidableEq R]
    (db : Base R) (paths : List String) :
    (∀ c : Case, c ∈ db.match_case_set paths ↔
      ∃ su ∈ db.suites, c ∈ su.match_case_set paths) ∧
    (∀ su : Suite R, su ∈ db.match_suite_set paths ↔
      su ∈ db.suites ∧ su.matches paths = true) ∧
    (∀ su : Suite R, su.matches paths = true ↔ su.match_case_set paths ≠ ∅) :=
  ⟨Base.mem_match_case_set_iff db paths,
   Base.mem_match_suite_set db paths,
   fun su => Suite.matches_iff su paths⟩

/-- C5: `get_case` returns `None` exactly when no declared case bears the
requested name; whenever the cases list splits as `l1 ++ c :: l2` with `c`
named as requested and nothing in `l1` so named, `get_case` returns that
first `c` (so with duplicate names the earlier-declared case wins); and
any returned case is a declared case bearing the requested name. -/
theorem claim_C5_get_case_first_in_declaration_order {R : Type}
    (s : Suite R) (nm : String) :
    (s.get_case nm = none ↔ ∀ c ∈ s.cases, c.name ≠ nm) ∧
    (∀ (l1 : List Case) (c : Case) (l2 : List Case),
      s.cases = l1 ++ c :: l2 → c.name = nm →
      (∀ c' ∈ l1, c'.name ≠ nm) → s.get_case nm = some c) ∧
    (∀ c : Case, s.get_case nm = some c → c ∈ s.cases ∧ c.name = nm) := by
  refine ⟨?_, ?_, ?_⟩
  · rw [Suite.get_case, List.find?_eq_none]
    constructor
    · intro hall c hc
      simpa using hall c hc
    · intro hall c hc
      simpa using hall c hc
  · intro l1 c l2 hsplit hname hfirst
    rw [Suite.get_case, hsplit]
    exact find?_append_first _ l1 l2 c (by simpa using hname)
      (fun x hx => by simpa using hfirst x hx)
  · intro c hc
    exact ⟨Suite.get_case_mem s nm c hc, Suite.get_case_name s nm c hc⟩

/-- C6: a pattern whose `case_name` names no case of the suite is inert:
prepending such a dangling pattern to the suite's pattern list leaves
`match_case_set` unchanged on every path set (and the function is total,
so no error can arise). -/
theorem claim_C6_dangling_case_name_inert {R : Type} [RegexLike R]
    [DecidableEq R] (s : Suite R) (pat : Pattern R) (paths : List String)
    (h : s.get_case pat.case_name = none) :
    Suite.match_case_set { s with patterns := pat :: s.patterns } paths =
      s.match_case_set paths := by
  by_cases hp : paths = []
  · subst hp
    simp [Suite.match_case_set]
  · ext c
    rw [Suite.mem_match_case_set _ _ hp, Suite.mem_match_case_set _ _ hp]
    constructor
    · rintro ⟨q, hq, p, hpp, hmp, hsome⟩
      rcases List.mem_cons.mp hq with rfl | hq'
      · have hsome' : s.get_case q.case_name = some c := hsome
        rw [h] at hsome'
        exact absurd hsome' (by simp)
      · exact ⟨q, hq', p, hpp, hmp, hsome⟩
    · rintro ⟨q, hq, p, hpp, hmp, hsome⟩
      exact ⟨q, List.mem_cons_of_mem _ hq, p, hpp, hmp, hsome⟩

/-- C10: a suite with an empty cases list matches nothing: its matched
case set is empty on every path set (including the empty one), `matches`
is false, it never appears in `Base.match_suite_set`, and removing it from
a database leaves `Base.match_case_set` unchanged. -/
theorem claim_C10_empty_cases_suite_inert {R : Type} [RegexLike R]
    [DecidableEq R] (s : Suite R) (paths : List String) (db : Base R)
    (h : s.cases = []) :
    s.match_case_set paths = ∅ ∧
    s.matches paths = false ∧
    s ∉ db.match_suite_set paths ∧
    Base.match_case_set { db with suites := db.suites.erase s } paths =
      db.match_case_set paths := by
  have h1 : s.match_case_set paths = ∅ := by
    by_cases hp : paths = []
    · subst hp
      simp [Suite.match_case_set, h]
    · ext c
      rw [Suite.mem_match_case_set _ _ hp]
      simp only [Finset.not_mem_empty, iff_false]
      rintro ⟨q, _, p, _, _, hsome⟩
      have hmem := Suite.get_case_mem s q.case_name c hsome
      rw [h] at hmem
      exact absurd hmem (List.not_mem_nil c)
  have h2 : s.matches paths = false := by
    have := Suite.matches_iff s paths
    rcases Bool.eq_false_or_eq_true (s.matches paths) with hb | hb
    · exact absurd h1 (this.mp hb)
    · exact hb
  refine ⟨h1, h2, ?_, ?_⟩
  · intro hmem
    rcases (Base.mem_match_suite_set db paths s).mp hmem with ⟨_, htrue⟩
    rw [h2] at htrue
    exact Bool.false_ne_true htrue
  · ext c
    rw [Base.mem_match_case_set_iff, Base.mem_match_case_set_iff]
    constructor
    · rintro ⟨su, hsu, hc⟩
      exact ⟨su, List.mem_of_mem_erase hsu, hc⟩
    · rintro ⟨su, hsu, hc⟩
      by_cases hse : su = s
      · subst hse
        rw [h1] at hc
        exact absurd hc (Finset.not_mem_empty c)
      · exact ⟨su, (List.mem_erase_of_ne hse).mpr hsu, hc⟩

/-! ### Claim theorems: migration, binder, run generation -/

/-- C3: constructing the database from a legacy index document (suites as
a keyed map) succeeds and yields the same suites — equal even as lists,
hence as sets — as constructing from the current-shaped document holding
the same suite documents; `convert` replaces the suites map by the list
of its values and leaves every other key unchanged (and, being pure,
does not mutate its input). -/
theorem claim_C3_legacy_index_migration {R : Type} [DecidableEq R]
    (dir_path : String) (d : LegacyIndex (Suite R)) :
    (Base.ofIndex dir_path (.legacy d)).suites.toFinset =
      (Base.ofIndex dir_path
        (.current ⟨d.schemaVersion, d.suites.map Prod.snd, d.trees⟩)).suites.toFinset ∧
    Base.ofIndex dir_path (.legacy d) =
      Base.ofIndex dir_path (.current (convert d)) ∧
    (convert d).suites = d.suites.map Prod.snd ∧
    (convert d).schemaVersion = d.schemaVersion ∧
    (convert d).trees = d.trees :=
  ⟨rfl, rfl, rfl, rfl, rfl⟩

/-- When every required member is present in the resolved data, the
required-member assignment loop succeeds and copies each member's
value. -/
lemma assignRequired_ok {V : Type} (data : List (String × V)) :
    ∀ names : List String, (∀ n ∈ names, (alookup data n).isSome = true) →
      assignRequired names data =
        .ok (names.map (fun n => (n, alookup data n))) := by
  intro names
  induction names with
  | nil => intro _; rfl
  | cons n rest ih =>
    intro hall
    have hn : (alookup data n).isSome = true := hall n (List.mem_cons_self n rest)
    rw [assignRequired]
    cases hv : alookup data n with
    | none => rw [hv] at hn; exact absurd hn (by simp)
    | some v =>
      rw [ih (fun m hm => hall m (List.mem_cons_of_mem _ hm))]
      simp [hv]

/-- C7: `Object.__init__` wraps a `resolve` failure as
`Invalid("Invalid <type> data")`; a `validate` failure after a successful
`resolve` is raised as an internal error of a class distinct from
`Invalid`; and on success every required member of the recognized struct
is copied onto a same-named attribute and every optional member is copied
with a `None` default when absent. -/
theorem claim_C7_object_binder {D V : Type} (schema : SchemaModel D V)
    (typeName : String) (raw : D) :
    (∀ msg, schema.resolve raw = .error msg →
      Object.init schema typeName raw =
        .error (.invalid ("Invalid " ++ typeName ++ " data"))) ∧
    (∀ resolved emsg, schema.resolve raw = .ok resolved →
      schema.validate resolved = .error emsg →
      ∃ m, Object.init schema typeName raw = .error (.internal m)) ∧
    (∀ resolved, schema.resolve raw = .ok resolved →
      schema.validate resolved = .ok () →
      (∀ n ∈ schema.recognized.required, (alookup resolved n).isSome = true) →
      Object.init schema typeName raw =
        .ok (schema.recognized.required.map (fun n => (n, alookup resolved n)) ++
          schema.recognized.optional.map (fun n => (n, alookup resolved n)))) := by
  refine ⟨?_, ?_, ?_⟩
  · intro msg hres
    rw [Object.init, hres]
  · intro resolved emsg hres hval
    refine ⟨"Resolved data is invalid:\n" ++ emsg, ?_⟩
    simp only [Object.init, hres, hval]
  · intro resolved hres hval hall
    simp only [Object.init, hres, hval, assignRequired_ok resolved _ hall]

/-- C8: `generate_run` treats an unknown `tree_name` as a fatal,
assertion-checked precondition (it fails with the assertion error for
every other argument, never with a recoverable data error), and under the
precondition it renders the template registered for `tree_name` with
bindings carrying the description, kernel location, architecture, tree
name, raw path selector, the full suite set, the two matching methods,
and environment lookup. -/
theorem claim_C8_generate_run_bindings {R : Type} [RegexLike R]
    [DecidableEq R] {X : Type} (db : Base R)
    (render : String → TemplateParams R → String)
    (parseXML : String → Option X) (serializeXML : X → String)
    (getenv : String → Option String)
    (description tree_name arch_name kernel_location : String)
    (src_path_set : List String) (lint : Bool) :
    (alookup db.trees tree_name = none →
      db.generate_run render parseXML serializeXML getenv description
        tree_name arch_name kernel_location src_path_set lint =
        .error .assertionError) ∧
    (∀ tpl, alookup db.trees tree_name = some tpl →
      db.generate_run render parseXML serializeXML getenv description
        tree_name arch_name kernel_location src_path_set false =
        .ok (render tpl
          { DESCRIPTION := description
            KURL := kernel_location
            ARCH := arch_name
            TREE := tree_name
            SRC_PATH_SET := src_path_set
            SUITE_SET := db.suites.toFinset
            match_suite_set := db.match_suite_set
            match_case_set := db.match_case_set
            getenv := getenv })) := by
  constructor
  · intro hnone
    rw [Base.generate_run, Base.get_tree_template, hnone]
  · intro tpl hsome
    rw [Base.generate_run, Base.get_tree_template, hsome]
    rfl

/-- C9: with the lint flag set, `generate_run` parses the rendered text
as XML and returns its re-serialization (whitespace-stripped,
pretty-printed, with an XML declaration, embedded by `serializeXML`); if
the rendered text is not well-formed the whole call fails with the parse
error and no partial or unlinted output is returned. -/
theorem claim_C9_lint_pass {R : Type} [RegexLike R] [DecidableEq R]
    {X : Type} (db : Base R) (render : String → TemplateParams R → String)
    (parseXML : String → Option X) (serializeXML : X → String)
    (getenv : String → Option String)
    (description tree_name arch_name kernel_location : String)
    (src_path_set : List String) (tpl : String)
    (htpl : db.get_tree_template tree_name = some tpl) :
    (parseXML (render tpl (db.runParams getenv description tree_name
        arch_name kernel_location src_path_set)) = none →
      db.generate_run render parseXML serializeXML getenv description
        tree_name arch_name kernel_location src_path_set true =
        .error .xmlError) ∧
    (∀ x, parseXML (render tpl (db.runParams getenv description tree_name
        arch_name kernel_location src_path_set)) = some x →
      db.generate_run render parseXML serializeXML getenv description
        tree_name arch_name kernel_location src_path_set true =
        .ok (serializeXML x)) := by
  constructor
  · intro hnone
    rw [Base.generate_run, htpl]
    simp only [if_pos]
    rw [hnone]
  · intro x hsome
    rw [Base.generate_run, htpl]
    simp only [if_pos]
    rw [hsome]

/-! ### Witnesses -/

/-- Witness for C2 at a concrete suite and non-empty path set. -/
theorem claim_C2_witness :
    (["drivers/net/e1000.c"] : List String) ≠ [] ∧
    wsuite.match_case_set ["drivers/net/e1000.c"] ⊆ wsuite.cases.toFinset ∧
    (wcase1 ∈ wsuite.match_case_set ["drivers/net/e1000.c"] ↔
      ∃ pat ∈ wsuite.patterns, ∃ p ∈ ["drivers/net/e1000.c"],
        RegexLike.rmatch pat.pattern p = true ∧
        wsuite.get_case pat.case_name = some wcase1) :=
  ⟨by decide,
   (claim_C2_nonempty_selector_characterization wsuite
     ["drivers/net/e1000.c"] (by decide)).1,
   (claim_C2_nonempty_selector_characterization wsuite
     ["drivers/net/e1000.c"] (by decide)).2 wcase1⟩

/-- Witness for C5: with two same-named cases of differing optional
fields, `get_case` returns the earlier-declared one. -/
theorem claim_C5_witness :
    Suite.get_case (R := String) wsuiteDup "net-tests" = some wcase1 :=
  (claim_C5_get_case_first_in_declaration_order wsuiteDup "net-tests").2.1
    [] wcase1 [wcase2] rfl rfl (by decide)

/-- Witness for C6 at a concrete dangling pattern. -/
theorem claim_C6_witness :
    Suite.match_case_set { wsuite with patterns := wpatDangling :: wsuite.patterns }
        ["drivers/net/e1000.c"] =
      wsuite.match_case_set ["drivers/net/e1000.c"] :=
  claim_C6_dangling_case_name_inert wsuite wpatDangling
    ["drivers/net/e1000.c"] (by decide)

/-- Witness for C10 at a concrete empty-cases suite and database. -/
theorem claim_C10_witness :
    Suite.match_case_set (R := String) wsuiteEmpty [] = ∅ ∧
    Suite.matches (R := String) wsuiteEmpty [] = false ∧
    wsuiteEmpty ∉ wdb.match_suite_set [] ∧
    Base.match_case_set { wdb with suites := wdb.suites.erase wsuiteEmpty } [] =
      wdb.match_case_set [] :=
  claim_C10_empty_cases_suite_inert wsuiteEmpty [] wdb rfl

/-- Witness for C7 at a concrete schema model and raw input. -/
theorem claim_C7_witness :
    Object.init wschema "Case" [("name", 7)] =
      .ok [("name", some 7), ("opt", none)] :=
  (claim_C7_object_binder wschema "Case" [("name", 7)]).2.2
    [("name", 7)] rfl rfl (by decide)

/-- Witness for C8 at a concrete database: an unknown tree name fails the
assertion, and a known one renders the registered template with the full
bindings. -/
theorem claim_C8_witness :
    wdb.generate_run (fun tpl _ => tpl) (fun _ => (none : Option Unit))
        (fun _ => "") (fun _ => none) "run" "missing" "x86_64" "k.rpm" [] false =
      .error .assertionError ∧
    wdb.generate_run (fun tpl _ => tpl) (fun _ => (none : Option Unit))
        (fun _ => "") (fun _ => none) "run" "upstream" "x86_64" "k.rpm" [] false =
      .ok "upstream.xml" :=
  ⟨(claim_C8_generate_run_bindings wdb (fun tpl _ => tpl)
      (fun _ => (none : Option Unit)) (fun _ => "") (fun _ => none) "run"
      "missing" "x86_64" "k.rpm" [] false).1 (by decide),
   (claim_C8_generate_run_bindings wdb (fun tpl _ => tpl)
      (fun _ => (none : Option Unit)) (fun _ => "") (fun _ => none) "run"
      "upstream" "x86_64" "k.rpm" [] false).2 "upstream.xml" (by decide)⟩

/-- Witness for C9 at a concrete database: malformed rendered text fails
the lint pass, well-formed text is re-serialized. -/
theorem claim_C9_witness :
    wdb.generate_run (fun tpl _ => tpl) (fun _ => (none : Option Nat))
        (fun n => toString n) (fun _ => none) "run" "upstream" "x86_64"
        "k.rpm" [] true = .error .xmlError ∧
    wdb.generate_run (fun tpl _ => tpl) (fun _ => (some 5 : Option Nat))
        (fun _ => "<job/>") (fun _ => none) "run" "upstream" "x86_64"
        "k.rpm" [] true = .ok "<job/>" :=
  ⟨(claim_C9_lint_pass wdb (fun tpl _ => tpl) (fun _ => (none : Option Nat))
      (fun n => toString n) (fun _ => none) "run" "upstream" "x86_64"
      "k.rpm" [] "upstream.xml" (by decide)).1 rfl,
   (claim_C9_lint_pass wdb (fun tpl _ => tpl) (fun _ => (some 5 : Option Nat))
      (fun _ => "<job/>") (fun _ => none) "run" "upstream" "x86_64"
      "k.rpm" [] "upstream.xml" (by decide)).2 5 rfl⟩
